import Mathlib

/-!
Verification development for `doopl/factory.py`, a Python adapter that
marshals tabular data into the IBM OPL optimization engine and drives the
model lifecycle (generate / solve / post-process / read results).

The Python module is shallowly embedded below.  The external engine
(`doopl.opl` native bindings, CPLEX/CPO) is modelled by explicit oracles
(structures of values/functions that stand for the engine's replies), and
the adapter's calls into the engine are recorded as explicit effect traces
so that theorems can speak about which engine operations were performed
and in which order.  Python exceptions are modelled with `Except String`.
-/

namespace Doopl

/-! ## Scalar values

A Python scalar as seen by the adapter.  Only the operations the adapter
performs matter: `isinstance(v, str)`, `type(v) in {int, float}`,
`str(v)` and `float(v)`.  A Python `float` is carried with its rational
value together with its platform `str()` rendering (the adapter never
computes with it); `other` is any other scalar, identified by its default
`str()` conversion. -/

inductive PyVal where
  | str (s : String)
  | int (n : Int)
  | float (val : ℚ) (repr : String)
  | other (repr : String)
  deriving DecidableEq, Repr

/-- Python `str(v)` for the values above.  For `int` this is the canonical
decimal rendering; for `float` the platform rendering carried by the value. -/
def pyStr : PyVal → String
  | .str s => s
  | .int n => toString n
  | .float _ r => r
  | .other r => r

/-- Python `float(v)`: succeeds on `int` and `float`, fails otherwise
(the adapter only ever applies it to values destined for numeric columns). -/
def pyFloat : PyVal → Except String ℚ
  | .int n => .ok (n : ℚ)
  | .float q _ => .ok q
  | .str _ => .error "TypeError: could not convert string to float"
  | .other _ => .error "TypeError: could not convert argument to float"

/-! ## Column-type codes (module-level constants from factory.py) -/

def OPL_INTEGER : Nat := 1
def OPL_FLOAT : Nat := 2
def OPL_STRING : Nat := 3

/-- One cell of an `IloTupleCellArray`: the adapter writes either a numeric
value (`setNumValue`) or a string (`setStringValue`). -/
inductive Cell where
  | num (q : ℚ)
  | str (s : String)
  deriving DecidableEq, Repr

/-- `addCell` from `MyDataSource.read` (row-oriented path), restricted to the
value written into the cell at the given index.  Source (factory.py:79-90),
run under Python 3 (the `sys.version_info[0] == 2` branch is dead):

    if f == OPL_STRING:
        if isinstance(v, str): cells.setStringValue(index, v)
        elif type(v) in {int, float}: cells.setStringValue(index, str(v))
        else: cells.setStringValue(index, str(v))
    else:
        cells.setNumValue(index, float(v))

Here `type` is the builtin (no shadowing in this scope). -/
def addCell (f : Nat) (v : PyVal) : Except String Cell :=
  if f = OPL_STRING then
    match v with
    | .str s => .ok (.str s)
    | .int n => .ok (.str (toString n))
    | .float _ r => .ok (.str r)
    | .other r => .ok (.str r)
  else
    (pyFloat v).map .num

/-- The string-column coercion inside `fillTupleSet` (factory.py:100-110).
Inside that loop the name `type` is the enumeration variable of
`for i, type in enumerate(fields)` — an `int` (here the column code 3,
since this branch is only reached for string columns) — so the expression
`type(v)` on the non-`str` branch calls an `int` and raises
`TypeError: 'int' object is not callable`.  Only `isinstance(v, str)`
values survive. -/
def fillStringCell (v : PyVal) : Except String String :=
  match v with
  | .str s => .ok s
  | _ => .error "TypeError: int object is not callable"

/-! ## Engine effect trace for tuple-set filling -/

/-- Engine calls made while filling one tuple set; arguments are recorded
as the Python layer passes them. -/
inductive TSEffect where
  | setIntColumnValues (i : Nat) (col : List PyVal) (size : Nat)
  | setNumColumnValues (i : Nat) (col : List PyVal) (size : Nat)
  | setStringColumnValues (i : Nat) (col : List String) (size : Nat)
  | fillTupleHash
  | commit (cells : List (Option Cell))
  | commit2HashTable (cells : List (Option Cell))
  | fillColumns
  | cellsEnd
  deriving DecidableEq, Repr

/-- Inner loop of `fillTupleSet` (factory.py:94-112):
`for i, type in enumerate(fields): col = bycolumn[i]; ...`.
`bycolumn[i]` raises `IndexError` when the data has fewer columns than the
schema.  String columns run the (broken) coercion pass `fillStringCell`. -/
def fillCols (bycolumn : List (List PyVal)) (size : Nat) :
    List Nat → Nat → Except String (List TSEffect)
  | [], _ => .ok []
  | t :: rest, i =>
    match bycolumn.get? i with
    | none => .error "IndexError: list index out of range"
    | some col => do
      let eff ←
        if t = OPL_INTEGER then
          pure (TSEffect.setIntColumnValues i col size)
        else if t = OPL_FLOAT then
          pure (TSEffect.setNumColumnValues i col size)
        else do
          let vals ← col.mapM fillStringCell
          pure (TSEffect.setStringColumnValues i vals size)
      let effs ← fillCols bycolumn size rest (i + 1)
      pure (eff :: effs)

/-- `fillTupleSet` (factory.py:92-113): `size = len(bycolumn[0])` (an
`IndexError` on an empty column list), then the per-column loop, then —
unconditionally — `set.fillTupleHash()`. -/
def fillTupleSet (fields : List Nat) (bycolumn : List (List PyVal)) :
    Except String (List TSEffect) := do
  let size ←
    match bycolumn.head? with
    | none => .error "IndexError: list index out of range"
    | some c => pure c.length
  let effs ← fillCols bycolumn size fields 0
  pure (effs ++ [TSEffect.fillTupleHash])

/-! ## Schemas and input values -/

/-- The part of an `IloTupleSchema` that `MyDataSource.read` consults:
`_getColumnTypes()` (the ordered column-kind codes) and `hasKey()`. -/
structure Schema where
  fields : List Nat
  hasKey : Bool
  deriving DecidableEq, Repr

/-- The shapes `MyDataSource.read` distinguishes for an input value
(factory.py:115-135): a `list` of row-tuples, a pandas `DataFrame`
(already column-oriented), or any other iterable of row-like records. -/
inductive InputValue where
  | list (rows : List (List PyVal))
  | dataframe (cols : List (List PyVal))
  | iterable (rows : List (List PyVal))
  deriving DecidableEq, Repr

/-- `zip(*rows)` as Python computes it for the list path
(factory.py:116): the transpose truncated to the shortest row, empty when
there are no rows. -/
def pyZipCols (rows : List (List PyVal)) : List (List PyVal) :=
  match rows with
  | [] => []
  | r :: rs =>
    let n := rs.foldl (fun m r => min m r.length) r.length
    (List.range n).map (fun j => rows.filterMap (fun r => r.get? j))

/-- One step of the row-oriented commit: `for (i, t) in enumerate(v):
addCell(cells, i, fields[i], t)` (factory.py:129-130).  `fields[i]` raises
`IndexError` when the row is longer than the schema; `cells.set` mutates
the reused cell array in place. -/
def commitRow (fields : List Nat) :
    List (Option Cell) → List PyVal → Nat → Except String (List (Option Cell))
  | cells, [], _ => .ok cells
  | cells, t :: restRow, i =>
    match fields.get? i with
    | none => .error "IndexError: list index out of range"
    | some f => do
      let c ← addCell f t
      commitRow fields (cells.set i (some c)) restRow (i + 1)

/-- The per-row loop of the row-oriented path (factory.py:128-131): each
row writes its cells into the shared array, then commits it via the
method selected from the schema key (`commit` when keyed,
`commit2HashTable` when keyless). -/
def commitRowsAux (fields : List Nat) (hasKey : Bool) :
    List (Option Cell) → List (List PyVal) → Except String (List TSEffect)
  | _, [] => .ok []
  | cells, v :: rest => do
    let cells' ← commitRow fields cells v 0
    let effs ← commitRowsAux fields hasKey cells' rest
    pure ((if hasKey then TSEffect.commit cells'
           else TSEffect.commit2HashTable cells') :: effs)

/-- The full row-oriented commit path (factory.py:124-135):
`cells = IloTupleCellArray(env, fieldsSize)`; per-row commit with the
key-selected method; `set.fillColumns()` when the schema is keyless;
`cells.end()`. -/
def commitRows (schema : Schema) (rows : List (List PyVal)) :
    Except String (List TSEffect) := do
  let effs ← commitRowsAux schema.fields schema.hasKey
    (List.replicate schema.fields.length (none : Option Cell)) rows
  pure (effs ++ (if schema.hasKey then [] else [TSEffect.fillColumns])
             ++ [TSEffect.cellsEnd])

/-- The body of `MyDataSource.read` for one named input
(factory.py:115-135): lists are transposed and bulk-filled, data frames
are bulk-filled from their columns, anything else goes through the
row-oriented commit path. -/
def readInput (schema : Schema) (value : InputValue) :
    Except String (List TSEffect) :=
  match value with
  | .list rows => fillTupleSet schema.fields (pyZipCols rows)
  | .dataframe cols => fillTupleSet schema.fields cols
  | .iterable rows => commitRows schema rows

/-! ## The model session: `OplModel.__generate` / `OplModel.run` /
`OplModel.export_model`

The engine side (`self._opl`, an `IloOplModel`) is an oracle; the session
side is the Python object's mutable state, threaded explicitly. -/

/-- Oracle for the engine calls made by `__generate`, `__solve`, `run`
and `export_model`.  `generateRaises = some msg` means `opl.generate()`
raises an exception whose message (as printed) is `msg`. -/
structure OplEngine where
  generateRaises : Option String
  usingCP : Bool
  cpSolve : Bool
  cplexSolve : Bool
  hasProfiler : Bool
  deriving DecidableEq, Repr

/-- The session's registered inputs, as set up by `set_input`
(factory.py:191-201): programmatic inputs in `self._inputs`, data-file
names in `self._datfiles`. -/
structure OplModelData where
  inputs : List (String × InputValue)
  datfiles : List String
  deriving DecidableEq, Repr

/-- Observable engine/session state mutated by generation and running:
`opl.isGenerated()`, the number of `addDataSource` calls, everything
`print`ed, and counters for the engine calls `opl.generate()`,
`opl.postProcess()`, `profiler.printReport()` and
`getCplex()/getCP().exportModel(name)`. -/
structure OplState where
  isGenerated : Bool
  skipWarnSet : Bool
  attachedSources : Nat
  printed : List String
  generateCalls : Nat
  postProcessCalls : Nat
  profilerReports : Nat
  exports : List String
  deriving DecidableEq, Repr

/-- The state of a session object whose `run` has never been called. -/
def OplState.init : OplState :=
  { isGenerated := false, skipWarnSet := false, attachedSources := 0,
    printed := [], generateCalls := 0, postProcessCalls := 0,
    profilerReports := 0, exports := [] }

/-- `OplModel.__generate` (factory.py:263-279): when not yet generated,
suppress the unused-element warning, attach one aggregate `MyDataSource`
when any programmatic input is registered plus one `IloOplDataSource` per
data file, and call `opl.generate()`; any exception is caught, its message
printed, and `False` returned; otherwise `True`. -/
def generate (eng : OplEngine) (m : OplModelData) (s : OplState) :
    Bool × OplState :=
  if s.isGenerated then (true, s)
  else
    let s := { s with
      skipWarnSet := true,
      attachedSources := s.attachedSources
        + (if m.inputs.isEmpty then 0 else 1) + m.datfiles.length }
    match eng.generateRaises with
    | some msg =>
      (false, { s with printed := s.printed ++ [msg],
                       generateCalls := s.generateCalls + 1 })
    | none =>
      (true, { s with isGenerated := true,
                      generateCalls := s.generateCalls + 1 })

/-- `OplModel.__solve` (factory.py:204-208): CP backend or CPLEX backend,
by `opl.isUsingCP()`. -/
def solve (eng : OplEngine) : Bool :=
  if eng.usingCP then eng.cpSolve else eng.cplexSolve

/-- `OplModel.run` (factory.py:282-296): generate, then solve; a `False`
solve is returned as is; a `True` solve triggers `opl.postProcess()` (and
the profiler report when one is installed) before returning `True`; a
failed generation raises `ValueError("model was not generated")`. -/
def run (eng : OplEngine) (m : OplModelData) (s : OplState) :
    Except String Bool × OplState :=
  match generate eng m s with
  | (true, s) =>
    if solve eng = false then (.ok false, s)
    else
      let s := { s with postProcessCalls := s.postProcessCalls + 1 }
      let s := if eng.hasProfiler
        then { s with profilerReports := s.profilerReports + 1 } else s
      (.ok true, s)
  | (false, s) => (.error "model was not generated", s)

/-- The extension allow-list of `export_model` (factory.py:478). -/
def exportExtensions : List String := ["sav", ".lp", "cpo", "mps"]

/-- `OplModel.export_model` (factory.py:471-486): `extension = name[-3:]`;
a name whose last three characters are not allow-listed raises before any
other work; otherwise generate and ask the active backend to export. -/
def export_model (eng : OplEngine) (m : OplModelData) (name : String)
    (s : OplState) : Except String Unit × OplState :=
  let extension := name.takeRight 3
  if extension ∉ exportExtensions then
    (.error "can't export: give a correct file engine extension", s)
  else
    match generate eng m s with
    | (true, s) => (.ok (), { s with exports := s.exports ++ [name] })
    | (false, s) => (.error "model was not generated", s)

/-! ## Element lookup: `get_kpi`, `get_table`, `_is_tuple_set` -/

/-- The flags of an `IloOplElement` that `get_kpi`, `get_table` and
`_is_tuple_set` inspect, plus `asNum()` for decision expressions. -/
structure OplElement where
  isDiscreteDataCollection : Bool
  isTupleSet : Bool
  isDecisionExpression : Bool
  asNum : ℚ
  deriving DecidableEq

/-- The model's element namespace: `opl.getElement(name)` either returns
an element or raises (modelled as `none`). -/
def ElementEnv := String → Option OplElement

/-- `OplModel._is_tuple_set` (factory.py:565-575): a failed
`getElement` raises `ValueError("Table ... does not exist ...")`; an
element is a tuple set when it is a discrete data collection (checked
twice in the source) whose collection is a tuple set. -/
def is_tuple_set (env : ElementEnv) (name : String) : Except String Bool :=
  match env name with
  | none => .error ("Table " ++ name ++ " does not exist in the OPL model.")
  | some elt =>
    if elt.isDiscreteDataCollection then
      if elt.isDiscreteDataCollection then
        if elt.isTupleSet then .ok true
        else .ok false
      else .ok false
    else .ok false

/-- `OplModel.get_table` (factory.py:417-426), up to the tabular
conversion: a name that passes `_is_tuple_set` yields its element,
anything else raises `ValueError`. -/
def get_table (env : ElementEnv) (name : String) : Except String OplElement :=
  match is_tuple_set env name with
  | .error e => .error e
  | .ok true =>
    match env name with
    | some elt => .ok elt
    | none => .error ("Table " ++ name ++ " does not exist in the OPL model.")
  | .ok false => .error (name ++ " is not a TupleSet")

/-- `OplModel.get_kpi` (factory.py:224-238): a failed `getElement` and an
element that is not a decision expression both raise
`ValueError("... is not a valid OPL KPI")`; otherwise `elt.asNum()`. -/
def get_kpi (env : ElementEnv) (name : String) : Except String ℚ :=
  match env name with
  | none => .error (name ++ " is not a valid OPL KPI")
  | some elt =>
    if elt.isDecisionExpression then .ok elt.asNum
    else .error (name ++ " is not a valid OPL KPI")

/-! ## CPLEX statistics and quality metrics -/

/-- A Python float as compared by `_get_cplex_quality`: a finite value,
positive or negative infinity, or NaN.  The only operation performed on
it is `value != float("inf")`, which is `False` exactly on `pinf`. -/
inductive PFloat where
  | num (q : ℚ)
  | pinf
  | ninf
  | nan
  deriving DecidableEq, Repr

/-- A scalar stored in the statistics dictionaries (Python ints, floats
and bools). -/
inductive PyScalar where
  | int (n : Int)
  | float (f : PFloat)
  | bool (b : Bool)
  deriving DecidableEq, Repr

/-- Oracle for the `IloCplex` getters read by `_get_cplex_stats` and
`_get_cplex_quality`. -/
structure CplexOracle where
  getNiterations : Int
  getNbarrierIterations : Int
  getNsiftingIterations : Int
  getNsiftingPhaseOneIterations : Int
  getNcols : Int
  getNrows : Int
  getNQCs : Int
  getNSOSs : Int
  getNindicators : Int
  getNLCs : Int
  getNUCs : Int
  getNNZs : Int
  getNintVars : Int
  getNbinVars : Int
  getNsemiContVars : Int
  getNsemiIntVars : Int
  getBestObjValue : PFloat
  getIncumbentNode : Int
  getNprimalSuperbasics : Int
  getNdualSuperbasics : Int
  getNphaseOneIterations : Int
  getNnodes : Int
  getNnodesLeft : Int
  getNcrossPPush : Int
  getNcrossPExch : Int
  getNcrossDPush : Int
  getNcrossDExch : Int
  isPrimalFeasible : Bool
  isDualFeasible : Bool
  getCplexStatus_asInt : Int
  isMIP : Bool
  getNMIPStarts : Int
  getMIPRelativeGap : PFloat
  getCutoff : PFloat
  qualityEnumSize : Nat
  qualityEnumName : Nat → String
  quality : Nat → PFloat

/-- `ret[name] = value` on an `OrderedDict` modelled as an association
list: an existing key keeps its position and takes the new value, a new
key is appended. -/
def odInsert {α : Type} (ret : List (String × α)) (k : String) (v : α) :
    List (String × α) :=
  if ret.any (fun p => p.1 = k) then
    ret.map (fun p => if p.1 = k then (k, v) else p)
  else ret ++ [(k, v)]

/-- The dictionary built by `_get_cplex_stats` (factory.py:377-413) once
past the cache and backend checks: the fixed list of named engine
statistics, with the three MIP-specific entries appended when
`cplex.isMIP()`. -/
def computeStats (cpx : CplexOracle) : List (String × PyScalar) :=
  let base : List (String × PyScalar) :=
    [("Niterations", .int cpx.getNiterations),
     ("NbarrierIterations", .int cpx.getNbarrierIterations),
     ("NsiftingIterations", .int cpx.getNsiftingIterations),
     ("NsiftingPhaseOneIterations", .int cpx.getNsiftingPhaseOneIterations),
     ("Ncols", .int cpx.getNcols),
     ("Nrows", .int cpx.getNrows),
     ("NQCs", .int cpx.getNQCs),
     ("NSOSs", .int cpx.getNSOSs),
     ("Nindicators", .int cpx.getNindicators),
     ("NLCs", .int cpx.getNLCs),
     ("NUCs", .int cpx.getNUCs),
     ("NNZs", .int cpx.getNNZs),
     ("NintVars", .int cpx.getNintVars),
     ("NbinVars", .int cpx.getNbinVars),
     ("NsemiContVars", .int cpx.getNsemiContVars),
     ("NsemiIntVars", .int cpx.getNsemiIntVars),
     ("BestObjValue", .float cpx.getBestObjValue),
     ("IncumbentNode", .int cpx.getIncumbentNode),
     ("NprimalSuperbasics", .int cpx.getNprimalSuperbasics),
     ("NdualSuperbasics", .int cpx.getNdualSuperbasics),
     ("NphaseOneIterations", .int cpx.getNphaseOneIterations),
     ("Nnodes", .int cpx.getNnodes),
     ("NnodesLeft", .int cpx.getNnodesLeft),
     ("NcrossPPush", .int cpx.getNcrossPPush),
     ("NcrossPExch", .int cpx.getNcrossPExch),
     ("NcrossDPush", .int cpx.getNcrossDPush),
     ("NcrossDExch", .int cpx.getNcrossDExch),
     ("isPrimalFeasible", .bool cpx.isPrimalFeasible),
     ("isDualFeasible", .bool cpx.isDualFeasible),
     ("CplexStatus", .int cpx.getCplexStatus_asInt)]
  if cpx.isMIP then
    base ++ [("NMIPStarts", .int cpx.getNMIPStarts),
             ("MIPRelativeGap", .float cpx.getMIPRelativeGap),
             ("Cutoff", .float cpx.getCutoff)]
  else base

/-- The dictionary built by `_get_cplex_quality` (factory.py:347-356)
once past the cache and backend checks:
`for i in range(size): if i != 10 and i != 11: ...` and an entry is
stored only when its value differs from `float("inf")`. -/
def computeQuality (cpx : CplexOracle) : List (String × PFloat) :=
  (List.range cpx.qualityEnumSize).foldl
    (fun ret i =>
      if i ≠ 10 ∧ i ≠ 11 then
        let name := cpx.qualityEnumName i
        let value := cpx.quality i
        if value ≠ PFloat.pinf then odInsert ret name value else ret
      else ret)
    []

/-- The session-lifetime caches `self._cplex_stats` / `self._cplex_quality`
(initialised to `None` in `__init__`, factory.py:146-147). -/
structure StatCaches where
  cplex_stats : Option (List (String × PyScalar))
  cplex_quality : Option (List (String × PFloat))
  deriving DecidableEq

/-- `OplModel._get_cplex_stats` (factory.py:368-415): a populated cache is
returned as is; otherwise a CP backend raises; otherwise the statistics
are computed and cached. -/
def get_cplex_stats (usingCP : Bool) (cpx : CplexOracle) (c : StatCaches) :
    Except String (List (String × PyScalar) × StatCaches) :=
  match c.cplex_stats with
  | some m => .ok (m, c)
  | none =>
    if usingCP then .error "Cannot CPLEX specific method use with CPO"
    else
      let m := computeStats cpx
      .ok (m, { c with cplex_stats := some m })

/-- `OplModel._get_cplex_quality` (factory.py:342-358): a populated cache
is returned as is; otherwise a CP backend raises; otherwise the quality
metrics are computed and cached. -/
def get_cplex_quality (usingCP : Bool) (cpx : CplexOracle) (c : StatCaches) :
    Except String (List (String × PFloat) × StatCaches) :=
  match c.cplex_quality with
  | some m => .ok (m, c)
  | none =>
    if usingCP then .error "Cannot CPLEX specific method use with CPO"
    else
      let m := computeQuality cpx
      .ok (m, { c with cplex_quality := some m })

/-! ## Column-name flattening: `get_names` inside `__getTupleSet` -/

mutual
/-- An `IloTupleSchema` as `get_names` traverses it: a named schema whose
columns are scalar columns or named nested tuple columns carrying a
sub-schema with its own name. -/
inductive NSchema where
  | mk (name : String) (cols : NCols)

/-- A list of schema columns (a separate type so the mutual induction
with `NSchema` stays structural). -/
inductive NCols where
  | nil
  | cons (c : NCol) (cs : NCols)

/-- One column of an `NSchema`. -/
inductive NCol where
  | scalar (colName : String)
  | tup (colName : String) (sub : NSchema)
end

/-- View of an `NCols` as an ordinary list. -/
def NCols.toList : NCols → List NCol
  | .nil => []
  | .cons c cs => c :: cs.toList

/-- `schema.getName()`. -/
def NSchema.getName : NSchema → String
  | .mk n _ => n

/-- The column list of a schema. -/
def NSchema.cols : NSchema → List NCol
  | .mk _ cs => cs.toList

/-- `schema.getSize()`. -/
def NSchema.getSize (s : NSchema) : Nat := s.cols.length

/-- Whether a column is a nested tuple column. -/
def NCol.isTup : NCol → Bool
  | .tup _ _ => true
  | .scalar _ => false

/-- `schema._hasSubTuple()`. -/
def NSchema.hasSubTuple (s : NSchema) : Bool := s.cols.any NCol.isTup

/-- `schema._isTuple(i)`. -/
def NSchema.isTuple (s : NSchema) (i : Nat) : Bool :=
  match s.cols.get? i with
  | some (.tup _ _) => true
  | _ => false

/-- `schema.getColumnName(i)` (only queried at valid indices). -/
def NSchema.getColumnName (s : NSchema) (i : Nat) : String :=
  match s.cols.get? i with
  | some (.scalar n) => n
  | some (.tup n _) => n
  | none => ""

/-- `schema._getTupleColumn(i)`: the sub-schema of a tuple column,
failing on a non-tuple column. -/
def NSchema.getTupleColumn (s : NSchema) (i : Nat) : Option NSchema :=
  match s.cols.get? i with
  | some (.tup _ sub) => some sub
  | _ => none

mutual
/-- `get_names` (factory.py:450-465) as written: the recursion parameter
is `schem`, but the sub-schema of a tuple column is fetched from the
closed-over top-level `schema` (`sub = schema._getTupleColumn(i)`), not
from `schem`.  A fuel parameter makes the (possibly non-terminating)
Python recursion total; `none` is an exhausted fuel budget, a failed
`_getTupleColumn`, or divergence below. -/
def get_names_code (schema : NSchema) : Nat → NSchema → Option (List String)
  | 0, _ => none
  | fuel + 1, schem =>
    if schem.hasSubTuple then
      get_names_loop schema fuel schem (List.range schem.getSize)
    else
      some ((List.range schem.getSize).map schem.getColumnName)
termination_by fuel _ => (fuel, 0)

/-- The `for i in range(0, schem.getSize())` body of the subtuple branch. -/
def get_names_loop (schema : NSchema) (fuel : Nat) (schem : NSchema) :
    List Nat → Option (List String)
  | [] => some []
  | i :: rest =>
    if schem.isTuple i then
      match schema.getTupleColumn i with
      | none => none
      | some sub =>
        match get_names_code schema fuel sub with
        | none => none
        | some subNames =>
          match get_names_loop schema fuel schem rest with
          | none => none
          | some tail =>
            some (subNames.map (fun j => sub.getName ++ "." ++ j) ++ tail)
    else
      match get_names_loop schema fuel schem rest with
      | none => none
      | some tail => some (schem.getColumnName i :: tail)
termination_by l => (fuel, l.length + 1)
end

mutual
/-- Modelled from the spec: the recursive flattening `get_names` is
described to compute — each column of a nested tuple column is labelled
`sub.getName() ++ "." ++ inner`, with the sub-schema looked up in the
schema currently being flattened; scalar columns keep their names. -/
def get_names_spec : NSchema → List String
  | .mk _ cs => get_names_spec_cols cs

/-- Flattening of a column list, per the spec's recursive description. -/
def get_names_spec_cols : NCols → List String
  | .nil => []
  | .cons (.scalar n) rest => n :: get_names_spec_cols rest
  | .cons (.tup _ sub) rest =>
    (get_names_spec sub).map (fun j => sub.getName ++ "." ++ j)
      ++ get_names_spec_cols rest
end

/-! ## Statement-side helpers -/

/-- Sequencing of `addCell` over (column-kind, value) pairs: the cells a
row produces when each value meets its declared column, in order. -/
def addCells : List (Nat × PyVal) → Except String (List Cell)
  | [] => .ok []
  | p :: rest => do
    let c ← addCell p.1 p.2
    let cs ← addCells rest
    pure (c :: cs)

/-- The cells of one row against the schema columns, in declared column
order. -/
def rowToCells (fields : List Nat) (r : List PyVal) : Except String (List Cell) :=
  addCells (fields.zip r)

/-- The cells of every row of an input, row by row. -/
def rowsToCells (fields : List Nat) :
    List (List PyVal) → Except String (List (List Cell))
  | [] => .ok []
  | r :: rest => do
    let cs ← rowToCells fields r
    let css ← rowsToCells fields rest
    pure (cs :: css)

/-- A depth-2 nested schema: `U` has one scalar column `x`. -/
def schemaU : NSchema := .mk "U" (.cons (.scalar "x") .nil)

/-- A depth-2 nested schema: `T` has one tuple column `d` of sub-schema `U`. -/
def schemaT : NSchema := .mk "T" (.cons (.tup "d" schemaU) .nil)

/-- A depth-2 nested schema: `S` has one tuple column `c` of sub-schema `T`. -/
def schemaS : NSchema := .mk "S" (.cons (.tup "c" schemaT) .nil)

/-- A concrete CPLEX oracle, used to instantiate the statistics theorems:
three quality metrics with distinct names and finite values. -/
def sampleCplex : CplexOracle :=
  { getNiterations := 0, getNbarrierIterations := 0,
    getNsiftingIterations := 0, getNsiftingPhaseOneIterations := 0,
    getNcols := 0, getNrows := 0, getNQCs := 0, getNSOSs := 0,
    getNindicators := 0, getNLCs := 0, getNUCs := 0, getNNZs := 0,
    getNintVars := 0, getNbinVars := 0, getNsemiContVars := 0,
    getNsemiIntVars := 0, getBestObjValue := .num 0,
    getIncumbentNode := 0, getNprimalSuperbasics := 0,
    getNdualSuperbasics := 0, getNphaseOneIterations := 0,
    getNnodes := 0, getNnodesLeft := 0, getNcrossPPush := 0,
    getNcrossPExch := 0, getNcrossDPush := 0, getNcrossDExch := 0,
    isPrimalFeasible := true, isDualFeasible := true,
    getCplexStatus_asInt := 1, isMIP := false, getNMIPStarts := 0,
    getMIPRelativeGap := .num 0, getCutoff := .num 0,
    qualityEnumSize := 3,
    qualityEnumName := fun i => "q" ++ toString i,
    quality := fun _ => PFloat.num 1 }

/-! ## Theorems -/

/-- **C1.** The claim says an integer in a string-typed column is
committed as its canonical decimal string in both fill paths alike.  The
row-oriented path does so (`addCell` turns `5` into the cell `"5"`), but
in the column-oriented path the loop variable `type` shadows the builtin,
so `fillTupleSet` raises `TypeError` on the very same scalar instead of
committing `"5"`: committing the one-row list `[(5,)]` against a
one-string-column schema fails. -/
theorem string_column_coercion_paths_disagree :
    addCell OPL_STRING (PyVal.int 5) = .ok (Cell.str "5") ∧
    fillTupleSet [OPL_STRING] [[PyVal.int 5]]
      = .error "TypeError: int object is not callable" ∧
    readInput { fields := [OPL_STRING], hasKey := false }
        (InputValue.list [[PyVal.int 5]])
      = .error "TypeError: int object is not callable" := by
  refine ⟨rfl, rfl, rfl⟩

/-- **C6.** A file name whose last three characters are not in the fixed
allow-list makes `export_model` raise with the session state untouched
(no generation, no export); `"result.sav"` passes the extension check and
`"result.txt"` is rejected before any I/O. -/
theorem export_model_extension_allowlist (eng : OplEngine) (m : OplModelData)
    (s : OplState) (name : String)
    (h : name.takeRight 3 ∉ exportExtensions) :
    export_model eng m name s
      = (.error "can't export: give a correct file engine extension", s) ∧
    "result.sav".takeRight 3 ∈ exportExtensions ∧
    export_model eng m "result.txt" s
      = (.error "can't export: give a correct file engine extension", s) := by
  have htxt : "result.txt".takeRight 3 ∉ exportExtensions := by decide
  refine ⟨?_, by decide, ?_⟩
  · simp only [export_model, if_pos h]
  · simp only [export_model, if_pos htxt]

/-- Witness for `export_model_extension_allowlist` at a concrete bad
extension. -/
theorem export_model_extension_allowlist_witness :
    export_model ⟨none, false, false, true, false⟩ ⟨[], []⟩ "model.bad"
        OplState.init
      = (.error "can't export: give a correct file engine extension",
         OplState.init) :=
  (export_model_extension_allowlist ⟨none, false, false, true, false⟩
    ⟨[], []⟩ OplState.init "model.bad" (by decide)).1

/-- **C7.** A name that does not resolve to a tuple-set element — whether
it resolves to no element at all or to an element that is not a tuple
set — makes `get_table` raise a usage error, and a name that does not
resolve to a decision expression makes `get_kpi` raise a usage error;
neither returns a result. -/
theorem get_table_get_kpi_usage_error (env : ElementEnv) (name : String) :
    ((∀ elt, env name = some elt →
        elt.isDiscreteDataCollection = false ∨ elt.isTupleSet = false) →
      ∃ e, get_table env name = .error e) ∧
    ((∀ elt, env name = some elt → elt.isDecisionExpression = false) →
      ∃ e, get_kpi env name = .error e) := by
  constructor
  · intro h
    unfold get_table is_tuple_set
    cases henv : env name with
    | none => exact ⟨_, rfl⟩
    | some elt =>
      rcases h elt henv with h1 | h1 <;>
        cases h2 : elt.isDiscreteDataCollection <;>
        cases h3 : elt.isTupleSet <;>
        simp_all
  · intro h
    unfold get_kpi
    cases henv : env name with
    | none => exact ⟨_, rfl⟩
    | some elt => simp [h elt henv]

/-- Witness for `get_table_get_kpi_usage_error`: a name bound to no
element at all. -/
theorem get_table_get_kpi_usage_error_witness :
    (∃ e, get_table (fun _ => none) "x" = .error e) ∧
    (∃ e, get_kpi (fun _ => none) "x" = .error e) :=
  ⟨(get_table_get_kpi_usage_error (fun _ => none) "x").1
      (fun _ h => Option.noConfusion h),
   (get_table_get_kpi_usage_error (fun _ => none) "x").2
      (fun _ h => Option.noConfusion h)⟩

/-- **C2.** `run` raises its usage error exactly when the generation step
reports failure; an engine exception during generation is caught, its
message printed, and turned into a `false` generation outcome; and when
generation succeeds `run` returns the solve outcome, invoking
`postProcess` exactly when the solve succeeded. -/
theorem run_generation_outcome (eng : OplEngine) (m : OplModelData)
    (s : OplState) :
    ((∃ e, (run eng m s).1 = .error e) ↔ (generate eng m s).1 = false) ∧
    (∀ msg, s.isGenerated = false → eng.generateRaises = some msg →
      (generate eng m s).1 = false ∧ msg ∈ (generate eng m s).2.printed) ∧
    ((generate eng m s).1 = true →
      (run eng m s).1 = .ok (solve eng) ∧
      (run eng m s).2.postProcessCalls
        = s.postProcessCalls + (if solve eng then 1 else 0)) := by
  have hpp : (generate eng m s).2.postProcessCalls = s.postProcessCalls := by
    unfold generate
    cases s.isGenerated <;> cases eng.generateRaises <;> simp
  refine ⟨?_, ?_, ?_⟩
  · rcases hg : generate eng m s with ⟨g, s'⟩
    cases g <;> cases hs : solve eng <;>
      simp [run, hg, hs]
  · intro msg hgen hraise
    simp [generate, hgen, hraise]
  · intro hg
    rcases hgen : generate eng m s with ⟨g, s'⟩
    rw [hgen] at hg hpp
    subst hg
    simp only [] at hpp
    cases hs : solve eng <;> cases hp : eng.hasProfiler <;>
      simp [run, hgen, hs, hp, hpp]

/-- Witness for `run_generation_outcome`: a fresh session whose engine
raises during generation. -/
theorem run_generation_outcome_witness :
    (generate ⟨some "boom", false, false, true, false⟩ ⟨[], []⟩
        OplState.init).1 = false ∧
    "boom" ∈ (generate ⟨some "boom", false, false, true, false⟩ ⟨[], []⟩
        OplState.init).2.printed :=
  (run_generation_outcome ⟨some "boom", false, false, true, false⟩ ⟨[], []⟩
      OplState.init).2.1 "boom" rfl rfl

/-- **C3 (counterexample).** The claim that on every session a second
`run` re-attaches no input is false: when the engine raises during
generation, `isGenerated` stays false, so a second `run` re-enters
`__generate` and attaches the aggregate data source for the registered
inputs a second time. -/
theorem run_twice_reattaches_after_failed_generation :
    ¬ (∀ (eng : OplEngine) (m : OplModelData),
        (run eng m (run eng m OplState.init).2).2.attachedSources
          = (run eng m OplState.init).2.attachedSources) := by
  intro h
  have h2 := h ⟨some "boom", false, false, true, false⟩
    ⟨[("Items", InputValue.list [])], []⟩
  revert h2
  decide

/-- **C3 (amended).** On a session whose first `run` successfully
generates the model, generation happens only on that first invocation —
attaching one aggregate data source when any programmatic input is
registered and one per data file — and a second `run` neither
regenerates nor attaches anything further.  (When generation fails, a
second `run` re-attempts it and re-attaches the inputs, as the
counterexample shows.) -/
theorem generate_idempotent_across_runs (eng : OplEngine) (m : OplModelData)
    (h : eng.generateRaises = none) :
    (run eng m OplState.init).2.generateCalls = 1 ∧
    (run eng m OplState.init).2.attachedSources
      = (if m.inputs.isEmpty then 0 else 1) + m.datfiles.length ∧
    (run eng m (run eng m OplState.init).2).2.generateCalls = 1 ∧
    (run eng m (run eng m OplState.init).2).2.attachedSources
      = (run eng m OplState.init).2.attachedSources := by
  cases hs : solve eng <;> cases hp : eng.hasProfiler <;>
    simp [run, generate, OplState.init, h, hs, hp]

/-- Witness for `generate_idempotent_across_runs`: one programmatic input
and one data file. -/
theorem generate_idempotent_across_runs_witness :
    (run ⟨none, false, false, true, false⟩ ⟨[("Items", .list [])], ["d.dat"]⟩
        OplState.init).2.generateCalls = 1 ∧
    (run ⟨none, false, false, true, false⟩ ⟨[("Items", .list [])], ["d.dat"]⟩
        OplState.init).2.attachedSources
      = (if ([("Items", InputValue.list [])] : List (String × InputValue)).isEmpty
          then 0 else 1) + ["d.dat"].length ∧
    (run ⟨none, false, false, true, false⟩ ⟨[("Items", .list [])], ["d.dat"]⟩
        (run ⟨none, false, false, true, false⟩
          ⟨[("Items", .list [])], ["d.dat"]⟩ OplState.init).2).2.generateCalls
      = 1 ∧
    (run ⟨none, false, false, true, false⟩ ⟨[("Items", .list [])], ["d.dat"]⟩
        (run ⟨none, false, false, true, false⟩
          ⟨[("Items", .list [])], ["d.dat"]⟩ OplState.init).2).2.attachedSources
      = (run ⟨none, false, false, true, false⟩
          ⟨[("Items", .list [])], ["d.dat"]⟩ OplState.init).2.attachedSources :=
  generate_idempotent_across_runs ⟨none, false, false, true, false⟩
    ⟨[("Items", .list [])], ["d.dat"]⟩ rfl

/-- **C8.** On a constraint-programming session with untouched caches,
reading either statistics accessor raises a usage error and returns
nothing; on a CPLEX session each snapshot is computed once, cached, and
every subsequent read — even if the engine would now answer differently —
returns the same cached mapping. -/
theorem cplex_stats_quality_guard_and_cache (cpx cpx' : CplexOracle)
    (c : StatCaches) (hs : c.cplex_stats = none) (hq : c.cplex_quality = none) :
    get_cplex_stats true cpx c
      = .error "Cannot CPLEX specific method use with CPO" ∧
    get_cplex_quality true cpx c
      = .error "Cannot CPLEX specific method use with CPO" ∧
    (∃ c₁, get_cplex_stats false cpx c = .ok (computeStats cpx, c₁) ∧
      get_cplex_stats false cpx' c₁ = .ok (computeStats cpx, c₁)) ∧
    (∃ c₁, get_cplex_quality false cpx c = .ok (computeQuality cpx, c₁) ∧
      get_cplex_quality false cpx' c₁ = .ok (computeQuality cpx, c₁)) := by
  refine ⟨?_, ?_, ?_, ?_⟩
  · simp [get_cplex_stats, hs]
  · simp [get_cplex_quality, hq]
  · exact ⟨{ c with cplex_stats := some (computeStats cpx) },
      by simp [get_cplex_stats, hs], by simp [get_cplex_stats]⟩
  · exact ⟨{ c with cplex_quality := some (computeQuality cpx) },
      by simp [get_cplex_quality, hq], by simp [get_cplex_quality]⟩

/-- Witness for `cplex_stats_quality_guard_and_cache` at the sample
oracle and fresh caches. -/
theorem cplex_stats_quality_guard_and_cache_witness :
    get_cplex_stats true sampleCplex ⟨none, none⟩
      = .error "Cannot CPLEX specific method use with CPO" ∧
    get_cplex_quality true sampleCplex ⟨none, none⟩
      = .error "Cannot CPLEX specific method use with CPO" ∧
    (∃ c₁, get_cplex_stats false sampleCplex ⟨none, none⟩
        = .ok (computeStats sampleCplex, c₁) ∧
      get_cplex_stats false sampleCplex c₁
        = .ok (computeStats sampleCplex, c₁)) ∧
    (∃ c₁, get_cplex_quality false sampleCplex ⟨none, none⟩
        = .ok (computeQuality sampleCplex, c₁) ∧
      get_cplex_quality false sampleCplex c₁
        = .ok (computeQuality sampleCplex, c₁)) :=
  cplex_stats_quality_guard_and_cache sampleCplex sampleCplex
    ⟨none, none⟩ rfl rfl

/-- **C4 (counterexample).** The claim that the column-oriented fill path
rebuilds the tuple-set hash index if and only if the schema declares a
key is false: a keyless one-integer-column schema filled from a one-row
list still gets `fillTupleHash`. -/
theorem fillTupleHash_not_key_conditional :
    ¬ (∀ (schema : Schema) (value : InputValue) (effs : List TSEffect),
        readInput schema value = .ok effs →
        (TSEffect.fillTupleHash ∈ effs ↔ schema.hasKey = true)) := by
  intro h
  have h2 := h { fields := [OPL_INTEGER], hasKey := false }
    (InputValue.list [[PyVal.int 1]])
    [TSEffect.setIntColumnValues 0 [PyVal.int 1] 1, TSEffect.fillTupleHash]
    rfl
  simp at h2

/-- **C4 (amended).** In the column-oriented fill path, after all schema
columns have been written as typed column batches, the internal hash
index is rebuilt unconditionally — for keyed and keyless schemas alike —
as the final engine call of every successful fill. -/
theorem fillTupleSet_always_fillTupleHash (fields : List Nat)
    (bycolumn : List (List PyVal)) (effs : List TSEffect)
    (h : fillTupleSet fields bycolumn = .ok effs) :
    effs.getLast? = some TSEffect.fillTupleHash := by
  unfold fillTupleSet at h
  cases hb : bycolumn.head? with
  | none => rw [hb] at h; exact Except.noConfusion h
  | some c =>
    rw [hb] at h
    cases hf : fillCols bycolumn c.length fields 0 with
    | error e => simp [hf] at h
    | ok effs0 =>
      simp [hf] at h
      subst h
      simp

/-- Witness for `fillTupleSet_always_fillTupleHash` at a concrete
successful fill. -/
theorem fillTupleSet_always_fillTupleHash_witness :
    ([TSEffect.setIntColumnValues 0 [PyVal.int 1] 1,
      TSEffect.fillTupleHash] : List TSEffect).getLast?
      = some TSEffect.fillTupleHash :=
  fillTupleSet_always_fillTupleHash [OPL_INTEGER] [[PyVal.int 1]]
    [TSEffect.setIntColumnValues 0 [PyVal.int 1] 1, TSEffect.fillTupleHash]
    rfl

/-- Binding a successful `Except` computation just applies the
continuation. -/
theorem exceptBind_ok {ε α β : Type} (a : α) (f : α → Except ε β) :
    (Except.ok a >>= f) = f a := rfl

/-- Binding a failed `Except` computation propagates the error. -/
theorem exceptBind_error {ε α β : Type} (e : ε) (f : α → Except ε β) :
    ((Except.error e : Except ε α) >>= f) = .error e := rfl

/-- Setting index `i` does not change the first `i` elements. -/
theorem take_set_eq {α : Type} (l : List α) (i : Nat) (a : α) :
    (l.set i a).take i = l.take i :=
  List.ext_getElem? fun j => by
    rw [List.getElem?_take, List.getElem?_take]
    split
    · next h' => rw [List.getElem?_set_ne (by omega)]
    · rfl

/-- A successful `addCells` yields exactly one cell per pair. -/
theorem addCells_length :
    ∀ {l : List (Nat × PyVal)} {cs : List Cell},
      addCells l = .ok cs → cs.length = l.length := by
  intro l
  induction l with
  | nil =>
    intro cs h
    simp only [addCells] at h
    cases h
    rfl
  | cons p rest ih =>
    intro cs h
    simp only [addCells] at h
    cases hc : addCell p.1 p.2 with
    | error e => rw [hc, exceptBind_error] at h; exact Except.noConfusion h
    | ok c =>
      rw [hc, exceptBind_ok] at h
      cases hr : addCells rest with
      | error e => rw [hr, exceptBind_error] at h; exact Except.noConfusion h
      | ok cs' =>
        rw [hr, exceptBind_ok] at h
        cases h
        simp [ih hr]

/-- Closed form of `commitRow` starting at column `i`: when the row
exactly fills the remaining columns, the loop either fails like the
`addCell` sequence or overwrites positions `i, i+1, …` of the reused
cell array with the cells of the row, in declared column order. -/
theorem commitRow_eq (fields : List Nat) :
    ∀ (r : List PyVal) (i : Nat) (cells : List (Option Cell)),
      cells.length = fields.length → i + r.length = fields.length →
      commitRow fields cells r i
        = (addCells ((fields.drop i).zip r)).map
            (fun cs => cells.take i ++ cs.map some) := by
  intro r
  induction r with
  | nil =>
    intro i cells hlen hi
    simp only [List.length_nil, Nat.add_zero] at hi
    simp only [commitRow, List.zip_nil_right, addCells, Except.map,
      List.map_nil, List.append_nil]
    rw [hi, ← hlen, List.take_length]
  | cons t rest ih =>
    intro i cells hlen hi
    simp only [List.length_cons] at hi
    have hilt : i < fields.length := by omega
    have hget : fields.get? i = some fields[i] := by
      simp [List.getElem?_eq_getElem hilt]
    rw [List.drop_eq_getElem_cons hilt, List.zip_cons_cons]
    simp only [commitRow, hget, addCells]
    cases haddc : addCell fields[i] t with
    | error e =>
      simp only [exceptBind_error]
      rfl
    | ok c =>
      simp only [exceptBind_ok]
      rw [ih (i + 1) (cells.set i (some c))
        (by simp [hlen]) (by omega)]
      cases hrest : addCells ((fields.drop (i + 1)).zip rest) with
      | error e => rfl
      | ok cs =>
        simp only [exceptBind_ok, Except.map, List.map_cons]
        have hset : (cells.set i (some c)).take (i + 1)
            = cells.take i ++ [some c] := by
          rw [List.take_succ, take_set_eq,
            List.getElem?_set_self (show i < cells.length by omega)]
          rfl
        rw [hset, List.append_assoc]
        rfl

/-- Closed form of the per-row commit loop: with full-length rows the
effect trace is one commit per row, carrying that row's cells, with the
commit method chosen once from the schema key. -/
theorem commitRowsAux_eq (fields : List Nat) (k : Bool) :
    ∀ (rows : List (List PyVal)) (cells : List (Option Cell)),
      cells.length = fields.length →
      (∀ r ∈ rows, r.length = fields.length) →
      commitRowsAux fields k cells rows
        = (rowsToCells fields rows).map
            (fun css => css.map (fun cs =>
              if k then TSEffect.commit (cs.map some)
              else TSEffect.commit2HashTable (cs.map some))) := by
  intro rows
  induction rows with
  | nil =>
    intro cells _ _
    rfl
  | cons r rest ih =>
    intro cells hlen hrows
    have hr : r.length = fields.length := hrows r (by simp)
    simp only [commitRowsAux, rowsToCells]
    rw [commitRow_eq fields r 0 cells hlen (by simpa using hr)]
    rw [List.drop_zero] at *
    cases h1 : addCells (fields.zip r) with
    | error e =>
      rw [show rowToCells fields r = addCells (fields.zip r) from rfl, h1]
      rfl
    | ok cs =>
      rw [show rowToCells fields r = addCells (fields.zip r) from rfl, h1]
      simp only [Except.map, List.take_zero, List.nil_append, exceptBind_ok]
      rw [ih (cs.map some)
        (by
          have := addCells_length h1
          simp only [List.length_map, this, List.length_zip, hr,
            Nat.min_self])
        (fun r' hr' => hrows r' (by simp [hr']))]
      cases h2 : rowsToCells fields rest with
      | error e => rfl
      | ok css => rfl

/-- **C5.** In the row-oriented commit path every successful commit
processes the rows in order, each row cell-by-cell in declared column
order (`addCell` of the i-th column kind against the i-th value), the
commit method is selected once from the schema key — `commit` for keyed
schemas, `commit2HashTable` for keyless ones — and exactly the keyless
case is finalized by a trailing `fillColumns` step. -/
theorem commit_discipline (schema : Schema) (rows : List (List PyVal))
    (effs : List TSEffect)
    (hlen : ∀ r ∈ rows, r.length = schema.fields.length)
    (h : commitRows schema rows = .ok effs) :
    ∃ css, rowsToCells schema.fields rows = .ok css ∧
      effs = css.map (fun cs =>
          if schema.hasKey then TSEffect.commit (cs.map some)
          else TSEffect.commit2HashTable (cs.map some))
        ++ (if schema.hasKey then [] else [TSEffect.fillColumns])
        ++ [TSEffect.cellsEnd] := by
  unfold commitRows at h
  rw [commitRowsAux_eq schema.fields schema.hasKey rows
    (List.replicate schema.fields.length none)
    (List.length_replicate _ _) hlen] at h
  cases hc : rowsToCells schema.fields rows with
  | error e => rw [hc] at h; exact Except.noConfusion h
  | ok css =>
    rw [hc] at h
    simp only [Except.map, exceptBind_ok] at h
    cases h
    exact ⟨css, rfl, rfl⟩

/-- Witness for `commit_discipline`: one full-length row against a
keyless (integer, string) schema. -/
theorem commit_discipline_witness :
    ∃ css, rowsToCells [OPL_INTEGER, OPL_STRING]
        [[PyVal.int 2, PyVal.str "a"]] = .ok css ∧
      ([TSEffect.commit2HashTable [some (Cell.num 2), some (Cell.str "a")],
        TSEffect.fillColumns, TSEffect.cellsEnd] : List TSEffect)
        = css.map (fun cs =>
            if (Schema.mk [OPL_INTEGER, OPL_STRING] false).hasKey
            then TSEffect.commit (cs.map some)
            else TSEffect.commit2HashTable (cs.map some))
          ++ (if (Schema.mk [OPL_INTEGER, OPL_STRING] false).hasKey
              then [] else [TSEffect.fillColumns])
          ++ [TSEffect.cellsEnd] :=
  commit_discipline ⟨[OPL_INTEGER, OPL_STRING], false⟩
    [[PyVal.int 2, PyVal.str "a"]]
    [TSEffect.commit2HashTable [some (Cell.num 2), some (Cell.str "a")],
     TSEffect.fillColumns, TSEffect.cellsEnd]
    (by decide) rfl

/-- Under the buggy top-level lookup, flattening the sub-schema `T` of
`schemaS` fetches `schemaS._getTupleColumn(0) = T` again and recurses
into `T` forever: no fuel budget suffices. -/
theorem get_names_code_T_none :
    ∀ fuel, get_names_code schemaS fuel schemaT = none := by
  have e1 : schemaT.hasSubTuple = true := rfl
  have e2 : schemaT.getSize = 1 := rfl
  have e3 : schemaT.isTuple 0 = true := rfl
  have e4 : schemaS.getTupleColumn 0 = some schemaT := rfl
  intro fuel
  induction fuel with
  | zero => simp [get_names_code]
  | succ n ih =>
    simp only [get_names_code, get_names_loop, e1, e2, e3, e4, ih,
      List.range_succ, List.range_zero, List.nil_append, if_true]

/-- **C9.** The claim describes recursive `outer.inner` flattening at
every nesting depth, but `get_names` looks the sub-schema up in the
closed-over top-level schema instead of the schema currently being
flattened: on the depth-2 schema `S = (c : T)`, `T = (d : U)`,
`U = (x)`, the code recurses into `T` forever (no fuel budget returns a
result), while the flattening the claim describes yields `["T.U.x"]`. -/
theorem get_names_nested_lookup_bug :
    (∀ fuel, get_names_code schemaS fuel schemaS = none) ∧
    get_names_spec schemaS = ["T.U.x"] := by
  constructor
  · have e4 : schemaS.getTupleColumn 0 = some schemaT := rfl
    have e5 : schemaS.hasSubTuple = true := rfl
    have e6 : schemaS.getSize = 1 := rfl
    have e7 : schemaS.isTuple 0 = true := rfl
    intro fuel
    cases fuel with
    | zero => simp [get_names_code]
    | succ n =>
      simp only [get_names_code, get_names_loop, e4, e5, e6, e7,
        get_names_code_T_none n, List.range_succ, List.range_zero,
        List.nil_append, if_true]
  · simp [get_names_spec, get_names_spec_cols, schemaS, schemaT, schemaU,
      NSchema.getName]

/-- `odInsert` with a key absent from the dictionary appends the pair. -/
theorem odInsert_of_fresh {α : Type} (ret : List (String × α)) (k : String)
    (v : α) (h : ∀ p ∈ ret, p.1 ≠ k) :
    odInsert ret k v = ret ++ [(k, v)] := by
  have hany : ret.any (fun p => p.1 = k) = false := by
    simp only [List.any_eq_false, decide_eq_true_eq]
    exact h
  simp [odInsert, hany]

/-- Closed form of the `_get_cplex_quality` loop: over indices with
pairwise distinct metric names that are also fresh for the accumulator,
the loop appends exactly the entries of the indices that are neither 10
nor 11 and whose value is not positive infinity, in order. -/
theorem computeQuality_foldl (cpx : CplexOracle) :
    ∀ (l : List Nat) (init : List (String × PFloat)),
      (∀ j ∈ l, ∀ p ∈ init, p.1 ≠ cpx.qualityEnumName j) →
      l.Pairwise (fun a b => cpx.qualityEnumName a ≠ cpx.qualityEnumName b) →
      l.foldl (fun ret i =>
          if i ≠ 10 ∧ i ≠ 11 then
            let name := cpx.qualityEnumName i
            let value := cpx.quality i
            if value ≠ PFloat.pinf then odInsert ret name value else ret
          else ret) init
        = init ++ (l.filter (fun i =>
            decide (i ≠ 10 ∧ i ≠ 11 ∧ cpx.quality i ≠ PFloat.pinf))).map
            (fun i => (cpx.qualityEnumName i, cpx.quality i)) := by
  intro l
  induction l with
  | nil =>
    intro init _ _
    simp
  | cons i rest ih =>
    intro init hnew hpw
    have hpw' := List.pairwise_cons.mp hpw
    simp only [List.foldl_cons, List.filter_cons]
    by_cases h1 : i ≠ 10 ∧ i ≠ 11
    · by_cases h2 : cpx.quality i ≠ PFloat.pinf
      · have hstep : (if i ≠ 10 ∧ i ≠ 11 then
            let name := cpx.qualityEnumName i
            let value := cpx.quality i
            if value ≠ PFloat.pinf then odInsert init name value else init
          else init)
            = init ++ [(cpx.qualityEnumName i, cpx.quality i)] := by
          rw [if_pos h1]
          simp only []
          rw [if_pos h2,
            odInsert_of_fresh _ _ _ (fun p hp => hnew i (by simp) p hp)]
        rw [hstep, ih _ ?_ hpw'.2]
        · have hkeep : decide (i ≠ 10 ∧ i ≠ 11 ∧ cpx.quality i ≠ PFloat.pinf)
              = true := by
            simp [h1.1, h1.2, h2]
          rw [hkeep]
          simp
        · intro j hj p hp
          rcases List.mem_append.mp hp with hp1 | hp1
          · exact hnew j (by simp [hj]) p hp1
          · have : p = (cpx.qualityEnumName i, cpx.quality i) := by
              simpa using hp1
            rw [this]
            exact hpw'.1 j hj
      · have hstep : (if i ≠ 10 ∧ i ≠ 11 then
            let name := cpx.qualityEnumName i
            let value := cpx.quality i
            if value ≠ PFloat.pinf then odInsert init name value else init
          else init) = init := by
          rw [if_pos h1]
          simp only []
          rw [if_neg h2]
        have hdrop : decide (i ≠ 10 ∧ i ≠ 11 ∧ cpx.quality i ≠ PFloat.pinf)
            = false := by
          simp only [decide_eq_false_iff_not]
          rintro ⟨-, -, hc⟩
          exact h2 hc
        rw [hstep, hdrop, ih _ (fun j hj => hnew j (by simp [hj])) hpw'.2]
        simp
    · have hdrop : decide (i ≠ 10 ∧ i ≠ 11 ∧ cpx.quality i ≠ PFloat.pinf)
          = false := by
        simp only [decide_eq_false_iff_not]
        rintro ⟨ha, hb, -⟩
        exact h1 ⟨ha, hb⟩
      rw [if_neg h1, hdrop, ih _ (fun j hj => hnew j (by simp [hj])) hpw'.2]
      simp

/-- **C10.** With pairwise distinct metric names, the mapping built by
`_get_cplex_quality` holds the entry of index `i` exactly when `i` is
neither of the hard-skipped indices 10 and 11 and the metric's value is
not positive infinity — a `+inf` value is silently omitted. -/
theorem cplex_quality_entry_condition (cpx : CplexOracle)
    (hinj : ∀ i, i < cpx.qualityEnumSize → ∀ j, j < cpx.qualityEnumSize →
        cpx.qualityEnumName i = cpx.qualityEnumName j → i = j)
    (i : Nat) (hi : i < cpx.qualityEnumSize) :
    ((cpx.qualityEnumName i, cpx.quality i) ∈ computeQuality cpx) ↔
      (i ≠ 10 ∧ i ≠ 11 ∧ cpx.quality i ≠ PFloat.pinf) := by
  have hpw : (List.range cpx.qualityEnumSize).Pairwise
      (fun a b => cpx.qualityEnumName a ≠ cpx.qualityEnumName b) := by
    refine (List.pairwise_lt_range _).imp_of_mem ?_
    intro a b ha hb hab hne
    exact Nat.ne_of_lt hab
      (hinj a (List.mem_range.mp ha) b (List.mem_range.mp hb) hne)
  unfold computeQuality
  rw [computeQuality_foldl cpx (List.range cpx.qualityEnumSize) []
    (by simp) hpw]
  simp only [List.nil_append, List.mem_map, List.mem_filter,
    List.mem_range, decide_eq_true_eq]
  constructor
  · rintro ⟨j, ⟨hjr, hcond⟩, heq⟩
    have hji : j = i := hinj j hjr i hi (congrArg Prod.fst heq)
    subst hji
    exact hcond
  · intro hc
    exact ⟨i, ⟨hi, hc⟩, rfl⟩

/-- Witness for `cplex_quality_entry_condition` at the sample oracle:
metric 1 is kept. -/
theorem cplex_quality_entry_condition_witness :
    ("q1", PFloat.num 1) ∈ computeQuality sampleCplex :=
  (cplex_quality_entry_condition sampleCplex (by decide) 1
    (by decide)).mpr (by decide)

end Doopl
